import Mathlib

/-!
# Local Work Store — verification of the IndexedDB persistence shim

Shallow embedding of the repository's persistence layer (`initDB`,
`saveWork`, `getAllWorks` operating on the `works` object store keyed by
`id`, with records of type `WorkItem` from `types.ts`).

Modelling choices, each tied to a line of the source:
* A `WorkItem` carries the nine fields of the TypeScript interface.
  TypeScript string enums erase to plain strings at runtime and the store
  performs no runtime validation, so `category` is modelled as `String`;
  blobs are byte lists; `createdAt` is an integer timestamp (`Int`).
* The persisted state is `Option Store`: `none` means the database (or its
  object store) does not exist yet; `initDB`'s `onupgradeneeded` handler
  creates the empty object store when absent (`createObjectStore` with
  `keyPath: 'id'`).
* The object store keeps records in ascending key order (IndexedDB key
  order on string keys), modelled by inserting with `List.orderedInsert`
  on the `id` field; `getAll` therefore yields ascending key order.
* `store.add` rejects with a `ConstraintError` when the key already
  exists; otherwise it stores the record verbatim.
* `getAllWorks` sorts the retrieved array with the comparator
  `(a, b) => b.createdAt - a.createdAt`; JavaScript `Array.prototype.sort`
  is a stable sort, modelled by the stable `List.insertionSort` on the
  relation `b.createdAt ≤ a.createdAt`.
* Platform failures (the `onerror` paths of `indexedDB.open`, `add`,
  `getAll`) are modelled by an environment of failure flags; each
  operation also records the trace of primitive engine calls it makes, so
  that "no internal retry" is expressible.
-/

namespace AllInsight

/-- The `WorkItem` record from `types.ts` (runtime view: the `Category`
string enum erases to its string value; `Blob`s are byte sequences). -/
structure WorkItem where
  id : String
  title : String
  category : String
  description : String
  coverBlob : List Nat
  fileBlob : List Nat
  fileName : String
  fileType : String
  createdAt : Int
  deriving DecidableEq

/-- The sort relation of `getAllWorks`'s comparator
`(a, b) => b.createdAt - a.createdAt`: `a` may come before `b` iff
`b.createdAt ≤ a.createdAt` (descending recency). -/
def recencyDesc (a b : WorkItem) : Prop := b.createdAt ≤ a.createdAt

instance : DecidableRel recencyDesc :=
  fun a b => inferInstanceAs (Decidable (b.createdAt ≤ a.createdAt))

instance : IsTotal WorkItem recencyDesc :=
  ⟨fun a b => le_total b.createdAt a.createdAt⟩

instance : IsTrans WorkItem recencyDesc :=
  ⟨fun _ _ _ h1 h2 => le_trans h2 h1⟩

/-- Lexicographic comparison of character sequences by code point,
the IndexedDB ordering of string keys (code-unit order; identical to
code-point order for the BMP strings used as ids). -/
def charListLE : List Char → List Char → Bool
  | [], _ => true
  | _ :: _, [] => false
  | a :: as, b :: bs =>
    if a < b then true else if b < a then false else charListLE as bs

/-- Strict lexicographic comparison of character sequences. -/
def charListLT : List Char → List Char → Bool
  | [], [] => false
  | [], _ :: _ => true
  | _ :: _, [] => false
  | a :: as, b :: bs =>
    if a < b then true else if b < a then false else charListLT as bs

/-- IndexedDB key order on the `id` key path. -/
def keyLE (a b : WorkItem) : Prop := charListLE a.id.data b.id.data = true

/-- Strict IndexedDB key order on the `id` key path. -/
def keyLT (a b : WorkItem) : Prop := charListLT a.id.data b.id.data = true

instance : DecidableRel keyLE :=
  fun _ _ => inferInstanceAs (Decidable (_ = true))

instance : DecidableRel keyLT :=
  fun _ _ => inferInstanceAs (Decidable (_ = true))

/-- Contents of the single `works` object store, in ascending key order. -/
abbrev Store := List WorkItem

/-- Error taxonomy of the store (`request.error` values surfaced through
`reject`): platform open failure, `ConstraintError` on duplicate key,
other write failure, read failure. -/
inductive DBError
  | initError
  | constraintError
  | writeError
  | readError
  deriving DecidableEq

/-- Platform failure flags: whether `indexedDB.open`, `store.add`, or
`store.getAll` fails at the engine level. -/
structure Env where
  openFails : Bool
  addFails : Bool
  getAllFails : Bool
  deriving DecidableEq

/-- The ordinary environment: the platform storage engine works. -/
def okEnv : Env := ⟨false, false, false⟩

/-- Primitive calls an operation makes against the platform engine. -/
inductive PrimCall
  | openDB
  | addRecord (id : String)
  | getAllRecords
  deriving DecidableEq

/-- Result of one store operation: the outcome delivered to the caller
(the resolved/rejected promise), the persisted state afterwards, and the
trace of primitive platform calls made. -/
structure OpResult (α : Type) where
  outcome : Except DBError α
  state : Option Store
  calls : List PrimCall

/-- Records visible in a persisted state (`none` = database absent). -/
abbrev contents (st : Option Store) : Store := st.getD []

/-- Embedding of `initDB` (part_000 lines 7–26): open the database; on
`onupgradeneeded` create the `works` object store keyed by `id` if absent;
resolve with the handle, or reject with the platform error. -/
def initDB (env : Env) (st : Option Store) : OpResult Store :=
  if env.openFails then
    { outcome := .error .initError, state := st, calls := [.openDB] }
  else
    { outcome := .ok (contents st), state := some (contents st),
      calls := [.openDB] }

/-- Embedding of `saveWork` (part_000 lines 28–38): `await initDB()`, then
`store.add(work)` in a readwrite transaction; `add` rejects with
`ConstraintError` when a record with the same `id` exists, otherwise the
record is stored verbatim at its key position; on rejection the
transaction aborts and the state is unchanged. -/
def saveWork (env : Env) (st : Option Store) (w : WorkItem) :
    OpResult Unit :=
  let r := initDB env st
  match r.outcome with
  | .error e => { outcome := .error e, state := r.state, calls := r.calls }
  | .ok s =>
    if env.addFails then
      { outcome := .error .writeError, state := r.state,
        calls := r.calls ++ [.addRecord w.id] }
    else if ∃ x ∈ s, x.id = w.id then
      { outcome := .error .constraintError, state := r.state,
        calls := r.calls ++ [.addRecord w.id] }
    else
      { outcome := .ok (), state := some (List.orderedInsert keyLE w s),
        calls := r.calls ++ [.addRecord w.id] }

/-- The in-memory sort of `getAllWorks`:
`result.sort((a, b) => b.createdAt - a.createdAt)` — a stable sort by
descending `createdAt`. -/
def sortByRecency (l : List WorkItem) : List WorkItem :=
  List.insertionSort recencyDesc l

/-- Embedding of `getAllWorks` (part_000 lines 40–55): `await initDB()`,
then `store.getAll()` in a readonly transaction (yielding all records in
ascending key order), sorted in memory by descending `createdAt`; rejects
with the request error on failure. -/
def getAllWorks (env : Env) (st : Option Store) :
    OpResult (List WorkItem) :=
  let r := initDB env st
  match r.outcome with
  | .error e => { outcome := .error e, state := r.state, calls := r.calls }
  | .ok s =>
    if env.getAllFails then
      { outcome := .error .readError, state := r.state,
        calls := r.calls ++ [.getAllRecords] }
    else
      { outcome := .ok (sortByRecency s), state := r.state,
        calls := r.calls ++ [.getAllRecords] }

/-- Run a sequence of `saveWork` calls in order (the UI awaits each in
sequence), stopping at the first rejection. -/
def runInserts (st : Option Store) : List WorkItem → Except DBError (Option Store)
  | [] => .ok st
  | w :: ws =>
    match (saveWork okEnv st w).outcome with
    | .error e => .error e
    | .ok _ => runInserts (saveWork okEnv st w).state ws

/-- A sample record used in concrete scenarios. -/
def recAlpha : WorkItem :=
  { id := "1", title := "Alpha", category := "brand", description := ""
    coverBlob := [1], fileBlob := [2], fileName := "a.pdf"
    fileType := "application/pdf", createdAt := 100 }

/-- A second sample record used in concrete scenarios. -/
def recBeta : WorkItem :=
  { id := "2", title := "Beta", category := "video", description := ""
    coverBlob := [3], fileBlob := [4], fileName := "b.mp4"
    fileType := "video/mp4", createdAt := 200 }

deriving instance DecidableEq for Except

/-! ### Equation lemmas for the operations -/

/-- With a working platform, `initDB` resolves with the collection and
creates it when absent. -/
theorem initDB_okEnv (st : Option Store) :
    initDB okEnv st =
      { outcome := .ok (contents st), state := some (contents st),
        calls := [.openDB] } := rfl

/-- With a working platform and a fresh id, `saveWork` stores the record
at its key position and resolves. -/
theorem saveWork_okEnv_of_fresh (st : Option Store) (w : WorkItem)
    (h : ¬ ∃ x ∈ contents st, x.id = w.id) :
    saveWork okEnv st w =
      { outcome := .ok ()
        state := some (List.orderedInsert keyLE w (contents st))
        calls := [.openDB, .addRecord w.id] } := by
  simp only [saveWork, initDB_okEnv]
  simp [okEnv, h]

/-- With a working platform and a colliding id, `saveWork` rejects with
the `ConstraintError` and leaves the state unchanged. -/
theorem saveWork_okEnv_of_dup (st : Option Store) (w : WorkItem)
    (h : ∃ x ∈ contents st, x.id = w.id) :
    saveWork okEnv st w =
      { outcome := .error .constraintError
        state := some (contents st)
        calls := [.openDB, .addRecord w.id] } := by
  simp only [saveWork, initDB_okEnv]
  simp [okEnv, h]

/-- With a working platform, `getAllWorks` resolves with the contents
sorted by descending recency. -/
theorem getAllWorks_okEnv (st : Option Store) :
    getAllWorks okEnv st =
      { outcome := .ok (sortByRecency (contents st))
        state := some (contents st)
        calls := [.openDB, .getAllRecords] } := rfl

/-- A record colliding with `recAlpha` on `id` but differing elsewhere. -/
def recAlphaDup : WorkItem :=
  { id := "1", title := "AlphaAgain", category := "exhibition"
    description := "different", coverBlob := [9], fileBlob := [8]
    fileName := "c.png", fileType := "image/png", createdAt := 300 }

/-- A record exercising the absence of field validation: empty title and
description, a category string outside the `{brand, video, exhibition}`
enumeration, empty blobs, negative timestamp. -/
def weirdRec : WorkItem :=
  { id := "x", title := "", category := "not-a-category", description := ""
    coverBlob := [], fileBlob := [], fileName := "", fileType := ""
    createdAt := -5 }

/-- Two records sharing `createdAt := 100` (a tie), with ids `"1" < "2"`. -/
def recTieA : WorkItem :=
  { id := "1", title := "TieA", category := "brand", description := ""
    coverBlob := [], fileBlob := [], fileName := "", fileType := ""
    createdAt := 100 }

/-- The second tied record, id `"2"`. -/
def recTieB : WorkItem :=
  { id := "2", title := "TieB", category := "video", description := ""
    coverBlob := [], fileBlob := [], fileName := "", fileType := ""
    createdAt := 100 }

/-! ### State-shape lemmas -/

/-- `initDB` never changes the stored records. -/
theorem contents_initDB_state (env : Env) (st : Option Store) :
    contents (initDB env st).state = contents st := by
  cases h : env.openFails <;> simp [initDB, h, contents]

/-- `getAllWorks` never changes the stored records. -/
theorem contents_getAllWorks_state (env : Env) (st : Option Store) :
    contents (getAllWorks env st).state = contents st := by
  cases h1 : env.openFails <;> cases h2 : env.getAllFails <;>
    simp [getAllWorks, initDB, h1, h2, contents]

/-- After `saveWork` the stored records are either unchanged (any failing
branch) or the old records with the fresh record inserted at its key
position. -/
theorem saveWork_state_cases (env : Env) (st : Option Store) (w : WorkItem) :
    contents (saveWork env st w).state = contents st ∨
      ((¬ ∃ x ∈ contents st, x.id = w.id) ∧
        contents (saveWork env st w).state =
          List.orderedInsert keyLE w (contents st)) := by
  cases h1 : env.openFails
  · cases h2 : env.addFails
    · by_cases h3 : ∃ x ∈ contents st, x.id = w.id
      · left; simp [saveWork, initDB, h1, h2, h3, contents]
      · right; exact ⟨h3, by simp [saveWork, initDB, h1, h2, h3, contents]⟩
    · left; simp [saveWork, initDB, h1, h2, contents]
  · left; simp [saveWork, initDB, h1, contents]

/-! ### Insert sequences -/

/-- Folding fresh inserts over a store succeeds and accumulates exactly
the inserted records (as a permutation, since each insert places its
record at its key position). -/
theorem runInserts_perm : ∀ (ws : List WorkItem) (s : Store),
    (ws.map WorkItem.id).Nodup →
    (∀ w ∈ ws, ∀ x ∈ s, x.id ≠ w.id) →
    ∃ t : Store, runInserts (some s) ws = .ok (some t) ∧ t.Perm (s ++ ws)
  | [], s, _, _ => ⟨s, rfl, by simp⟩
  | w :: ws, s, hnd, hfresh => by
    have hw : ¬ ∃ x ∈ contents (some s), x.id = w.id := by
      rintro ⟨x, hx, hxid⟩
      exact hfresh w (List.mem_cons_self w ws) x hx hxid
    have hnd' : (ws.map WorkItem.id).Nodup := (List.nodup_cons.mp hnd).2
    have hwid : w.id ∉ ws.map WorkItem.id := (List.nodup_cons.mp hnd).1
    have hfresh' : ∀ w' ∈ ws, ∀ x ∈ List.orderedInsert keyLE w s,
        x.id ≠ w'.id := by
      intro w' hw' x hx
      rcases (List.mem_orderedInsert keyLE).mp hx with hxw | hxs
      · subst hxw
        intro hcontra
        exact hwid (by rw [hcontra]; exact List.mem_map_of_mem WorkItem.id hw')
      · exact hfresh w' (List.mem_cons_of_mem _ hw') x hxs
    obtain ⟨t, hrun, hperm⟩ :=
      runInserts_perm ws (List.orderedInsert keyLE w s) hnd' hfresh'
    refine ⟨t, ?_, ?_⟩
    · simp only [runInserts]
      rw [saveWork_okEnv_of_fresh (some s) w hw]
      exact hrun
    · exact hperm.trans
        (((List.perm_orderedInsert keyLE w s).append_right ws).trans
          List.perm_middle.symm)

/-! ### Stability of the in-memory sort -/

/-- Inserting `a` into a list ordered by `q` keeps `q`-orderedness,
provided `a` is `q`-below the whole list and every strict `r`-descent
re-establishes `q` backwards (the pairs the sort may reorder are exactly
the strict ones). -/
theorem pairwise_orderedInsert_of {α : Type} (r q : α → α → Prop)
    [DecidableRel r] (hback : ∀ a b, ¬ r a b → q b a) (a : α) :
    ∀ l : List α, l.Pairwise q → (∀ b ∈ l, q a b) →
      (List.orderedInsert r a l).Pairwise q := by
  intro l
  induction l with
  | nil => intro _ _; simp
  | cons y ys ih =>
    intro hl ha
    rcases List.pairwise_cons.mp hl with ⟨hy, hys⟩
    rw [List.orderedInsert]
    split_ifs with hr
    · exact List.Pairwise.cons ha hl
    · refine List.Pairwise.cons ?_
        (ih hys fun b hb => ha b (List.mem_cons_of_mem _ hb))
      intro b hb
      rcases (List.mem_orderedInsert r).mp hb with hba | hbys
      · rw [hba]
        exact hback a y hr
      · exact hy b hbys

/-- Insertion sort (the model of JavaScript's stable `Array.sort`) keeps
any `q`-orderedness of its input whose violations could only come from
`r`-strict reorderings. -/
theorem pairwise_insertionSort_of {α : Type} (r q : α → α → Prop)
    [DecidableRel r] (hback : ∀ a b, ¬ r a b → q b a) :
    ∀ l : List α, l.Pairwise q → (List.insertionSort r l).Pairwise q := by
  intro l
  induction l with
  | nil => intro _; simp
  | cons x xs ih =>
    intro hl
    rcases List.pairwise_cons.mp hl with ⟨hx, hxs⟩
    rw [List.insertionSort]
    exact pairwise_orderedInsert_of r q hback x (List.insertionSort r xs)
      (ih hxs) fun b hb => hx b ((List.mem_insertionSort r).mp hb)

/-! ### The claims -/

/-- Claim C1: for every sequence of records with pairwise-distinct ids,
inserting each of them into a fresh store succeeds and a subsequent
`getAllWorks` returns exactly those records — a permutation of the very
records inserted, so every field (id, title, category, description, both
blobs, fileName, fileType, createdAt) round-trips unchanged — and each
inserted record is a member of the result. Since the sequence is
arbitrary, instantiating it at any prefix shows a successfully inserted
record is present in the result of every subsequent `getAllWorks` in the
same process. -/
theorem insert_roundtrip_listAll (ws : List WorkItem)
    (hids : (ws.map WorkItem.id).Nodup) :
    ∃ t : Store, runInserts (some []) ws = .ok (some t) ∧
      ∃ out : List WorkItem,
        (getAllWorks okEnv (some t)).outcome = .ok out ∧
        out.Perm ws ∧ ∀ w ∈ ws, w ∈ out := by
  obtain ⟨t, hrun, hperm⟩ := runInserts_perm ws [] hids (by simp)
  have houtperm : (sortByRecency t).Perm ws :=
    (List.perm_insertionSort recencyDesc t).trans (by simpa using hperm)
  exact ⟨t, hrun, sortByRecency t, rfl, houtperm,
    fun w hw => houtperm.mem_iff.mpr hw⟩

/-- Witness for C1: inserting the two concrete sample records and listing
them back. -/
theorem insert_roundtrip_listAll_witness :
    ∃ t : Store,
      runInserts (some []) [recAlpha, recBeta] = .ok (some t) ∧
      ∃ out : List WorkItem,
        (getAllWorks okEnv (some t)).outcome = .ok out ∧
        out.Perm [recAlpha, recBeta] ∧
        ∀ w ∈ [recAlpha, recBeta], w ∈ out :=
  insert_roundtrip_listAll [recAlpha, recBeta] (by decide)

/-- Claim C2: every successful `getAllWorks` result is sorted by
`createdAt` descending (each adjacent — indeed each ordered — pair
satisfies `b.createdAt ≤ a.createdAt`), and in the concrete scenario of
inserting a `createdAt = 100` record then a `createdAt = 200` record, the
list comes back with the `createdAt = 200` record (`recBeta`, "Beta")
first and the `createdAt = 100` record (`recAlpha`, "Alpha") second. -/
theorem listAll_sorted_desc (st : Option Store) (out : List WorkItem)
    (h : (getAllWorks okEnv st).outcome = .ok out) :
    out.Pairwise (fun a b => b.createdAt ≤ a.createdAt) ∧
      ∃ t : Store,
        runInserts (some []) [recAlpha, recBeta] = .ok (some t) ∧
        (getAllWorks okEnv (some t)).outcome = .ok [recBeta, recAlpha] := by
  constructor
  · rw [getAllWorks_okEnv] at h
    have hout : sortByRecency (contents st) = out := by
      simpa using h
    rw [← hout]
    exact List.sorted_insertionSort recencyDesc (contents st)
  · exact ⟨[recAlpha, recBeta], by decide, by decide⟩

/-- Witness for C2: the sortedness read off a concrete two-record store. -/
theorem listAll_sorted_desc_witness :
    ([recBeta, recAlpha].Pairwise fun a b => b.createdAt ≤ a.createdAt) ∧
      ∃ t : Store,
        runInserts (some []) [recAlpha, recBeta] = .ok (some t) ∧
        (getAllWorks okEnv (some t)).outcome = .ok [recBeta, recAlpha] :=
  listAll_sorted_desc (some [recAlpha, recBeta]) [recBeta, recAlpha]
    (by decide)

/-- Claim C3: inserting a record whose id already exists rejects with the
duplicate-key `ConstraintError` (never a silent overwrite), leaves the
stored records — in particular the previously stored record with that
id — unmodified, and a subsequent `getAllWorks` returns exactly what it
returned before the failed insert. -/
theorem duplicate_insert_rejected (s : Store) (w : WorkItem)
    (hdup : ∃ x ∈ s, x.id = w.id) :
    (saveWork okEnv (some s) w).outcome = .error .constraintError ∧
    (saveWork okEnv (some s) w).state = some s ∧
    (getAllWorks okEnv (saveWork okEnv (some s) w).state).outcome =
      (getAllWorks okEnv (some s)).outcome := by
  rw [saveWork_okEnv_of_dup (some s) w hdup]
  exact ⟨rfl, rfl, rfl⟩

/-- Witness for C3: re-inserting id "1" over `recAlpha` with different
field values is rejected and changes nothing. -/
theorem duplicate_insert_rejected_witness :
    (saveWork okEnv (some [recAlpha]) recAlphaDup).outcome =
      .error .constraintError ∧
    (saveWork okEnv (some [recAlpha]) recAlphaDup).state = some [recAlpha] ∧
    (getAllWorks okEnv
        (saveWork okEnv (some [recAlpha]) recAlphaDup).state).outcome =
      (getAllWorks okEnv (some [recAlpha])).outcome :=
  duplicate_insert_rejected [recAlpha] recAlphaDup (by decide)

/-- Claim C4: on a freshly initialized store with no records,
`getAllWorks` succeeds with the empty sequence rather than an error. -/
theorem listAll_empty_store_ok :
    (initDB okEnv none).state = some [] ∧
    (getAllWorks okEnv (initDB okEnv none).state).outcome =
      .ok ([] : List WorkItem) :=
  ⟨rfl, rfl⟩

/-- Claim C5: `initDB` is idempotent — with the platform available it
never rejects, a repeated call against the already-initialized state is a
no-op (same outcome, same state, the single `open` call), and every call
hands back a handle on the same underlying collection. -/
theorem initDB_idempotent (st : Option Store) :
    ∃ s : Store,
      initDB okEnv st =
        { outcome := .ok s, state := some s, calls := [.openDB] } ∧
      initDB okEnv (initDB okEnv st).state =
        { outcome := .ok s, state := some s, calls := [.openDB] } :=
  ⟨contents st, rfl, rfl⟩

/-- Witness for C5: idempotence at a concrete one-record state. -/
theorem initDB_idempotent_witness :
    ∃ s : Store,
      initDB okEnv (some [recAlpha]) =
        { outcome := .ok s, state := some s, calls := [.openDB] } ∧
      initDB okEnv (initDB okEnv (some [recAlpha])).state =
        { outcome := .ok s, state := some s, calls := [.openDB] } :=
  initDB_idempotent (some [recAlpha])

/-- Claim C6: `saveWork` and `getAllWorks` both begin with the open/
initialize primitive themselves (their call trace starts with `openDB`),
so from a completely uninitialized state (`none`, no prior `initDB`) an
insert succeeds and a listing returns the empty sequence; and when the
open step fails, each operation rejects with exactly initialization's
failure mode. -/
theorem ops_transparently_initialize (st : Option Store) (w : WorkItem) :
    (saveWork okEnv st w).calls.head? = some .openDB ∧
    (getAllWorks okEnv st).calls.head? = some .openDB ∧
    (saveWork okEnv none w =
      { outcome := .ok (), state := some [w]
        calls := [.openDB, .addRecord w.id] }) ∧
    (getAllWorks okEnv none).outcome = .ok ([] : List WorkItem) ∧
    (saveWork { openFails := true, addFails := false, getAllFails := false }
        st w).outcome = .error .initError ∧
    (getAllWorks { openFails := true, addFails := false, getAllFails := false }
        st).outcome = .error .initError := by
  refine ⟨?_, rfl, rfl, rfl, rfl, rfl⟩
  by_cases h : ∃ x ∈ contents st, x.id = w.id
  · rw [saveWork_okEnv_of_dup st w h]; rfl
  · rw [saveWork_okEnv_of_fresh st w h]; rfl

/-- Witness for C6 at a concrete state and record. -/
theorem ops_transparently_initialize_witness :
    (saveWork okEnv (some [recAlpha]) recBeta).calls.head? =
      some .openDB ∧
    (getAllWorks okEnv (some [recAlpha])).calls.head? = some .openDB ∧
    (saveWork okEnv none recBeta =
      { outcome := .ok (), state := some [recBeta]
        calls := [.openDB, .addRecord recBeta.id] }) ∧
    (getAllWorks okEnv none).outcome = .ok ([] : List WorkItem) ∧
    (saveWork { openFails := true, addFails := false, getAllFails := false }
        (some [recAlpha]) recBeta).outcome = .error .initError ∧
    (getAllWorks { openFails := true, addFails := false, getAllFails := false }
        (some [recAlpha])).outcome = .error .initError :=
  ops_transparently_initialize (some [recAlpha]) recBeta

/-- Claim C7: every failing execution surfaces its error to the immediate
caller as a rejected outcome, exactly once and with no internal retry: the
call trace shows the failing primitive attempted a single time, and the
rejected outcome carries that failure. Covered paths: open failure seen by
`initDB`, `saveWork` and `getAllWorks` (one `openDB` call, no `add`/
`getAll` attempted); platform write failure and duplicate-key rejection in
`saveWork` (one `addRecord` attempt); read failure in `getAllWorks` (one
`getAllRecords` attempt). -/
theorem errors_propagate_once (st : Option Store) (s : Store)
    (w : WorkItem) (hdup : ∃ x ∈ s, x.id = w.id) :
    initDB { openFails := true, addFails := false, getAllFails := false }
      st = { outcome := .error .initError, state := st
             calls := [.openDB] } ∧
    saveWork { openFails := true, addFails := false, getAllFails := false }
      st w = { outcome := .error .initError, state := st
               calls := [.openDB] } ∧
    getAllWorks { openFails := true, addFails := false, getAllFails := false }
      st = { outcome := .error .initError, state := st
             calls := [.openDB] } ∧
    saveWork { openFails := false, addFails := true, getAllFails := false }
      st w = { outcome := .error .writeError, state := some (contents st)
               calls := [.openDB, .addRecord w.id] } ∧
    saveWork okEnv (some s) w =
      { outcome := .error .constraintError, state := some s
        calls := [.openDB, .addRecord w.id] } ∧
    getAllWorks { openFails := false, addFails := false, getAllFails := true }
      st = { outcome := .error .readError, state := some (contents st)
             calls := [.openDB, .getAllRecords] } :=
  ⟨rfl, rfl, rfl, rfl, saveWork_okEnv_of_dup (some s) w hdup, rfl⟩

/-- Witness for C7 at a concrete state and duplicate record. -/
theorem errors_propagate_once_witness :
    initDB { openFails := true, addFails := false, getAllFails := false }
      (some [recBeta]) =
      { outcome := .error .initError, state := some [recBeta]
        calls := [.openDB] } ∧
    saveWork { openFails := true, addFails := false, getAllFails := false }
      (some [recBeta]) recAlphaDup =
      { outcome := .error .initError, state := some [recBeta]
        calls := [.openDB] } ∧
    getAllWorks { openFails := true, addFails := false, getAllFails := false }
      (some [recBeta]) =
      { outcome := .error .initError, state := some [recBeta]
        calls := [.openDB] } ∧
    saveWork { openFails := false, addFails := true, getAllFails := false }
      (some [recBeta]) recAlphaDup =
      { outcome := .error .writeError
        state := some (contents (some [recBeta]))
        calls := [.openDB, .addRecord recAlphaDup.id] } ∧
    saveWork okEnv (some [recAlpha]) recAlphaDup =
      { outcome := .error .constraintError, state := some [recAlpha]
        calls := [.openDB, .addRecord recAlphaDup.id] } ∧
    getAllWorks { openFails := false, addFails := false, getAllFails := true }
      (some [recBeta]) =
      { outcome := .error .readError
        state := some (contents (some [recBeta]))
        calls := [.openDB, .getAllRecords] } :=
  errors_propagate_once (some [recBeta]) [recAlpha] recAlphaDup (by decide)

/-- Claim C8: no operation of the store ever updates or deletes a written
record — under every environment (arbitrary platform failure flags),
every record present before `initDB`, `saveWork` or `getAllWorks` is
present, whole and field-for-field identical, afterwards — and id
uniqueness is preserved by each of the three operations. -/
theorem records_append_only (env : Env) (st : Option Store) (w : WorkItem)
    (huniq : ((contents st).map WorkItem.id).Nodup) :
    (∀ r ∈ contents st, r ∈ contents (initDB env st).state) ∧
    (∀ r ∈ contents st, r ∈ contents (saveWork env st w).state) ∧
    (∀ r ∈ contents st, r ∈ contents (getAllWorks env st).state) ∧
    ((contents (initDB env st).state).map WorkItem.id).Nodup ∧
    ((contents (saveWork env st w).state).map WorkItem.id).Nodup ∧
    ((contents (getAllWorks env st).state).map WorkItem.id).Nodup := by
  refine ⟨?_, ?_, ?_, ?_, ?_, ?_⟩
  · intro r hr; rw [contents_initDB_state]; exact hr
  · intro r hr
    rcases saveWork_state_cases env st w with h | ⟨_, h⟩
    · rw [h]; exact hr
    · rw [h]; exact (List.mem_orderedInsert keyLE).mpr (Or.inr hr)
  · intro r hr; rw [contents_getAllWorks_state]; exact hr
  · rw [contents_initDB_state]; exact huniq
  · rcases saveWork_state_cases env st w with h | ⟨hfresh, h⟩
    · rw [h]; exact huniq
    · rw [h]
      have hperm :
          ((List.orderedInsert keyLE w (contents st)).map WorkItem.id).Perm
            ((w :: contents st).map WorkItem.id) :=
        (List.perm_orderedInsert keyLE w (contents st)).map WorkItem.id
      refine hperm.nodup_iff.mpr ?_
      rw [List.map_cons]
      refine List.nodup_cons.mpr ⟨?_, huniq⟩
      intro hmem
      rcases List.mem_map.mp hmem with ⟨x, hx, hxid⟩
      exact hfresh ⟨x, hx, hxid⟩
  · rw [contents_getAllWorks_state]; exact huniq

/-- Witness for C8 at a concrete one-record state under the ordinary
environment. -/
theorem records_append_only_witness :
    (∀ r ∈ contents (some [recTieA]),
      r ∈ contents (initDB okEnv (some [recTieA])).state) ∧
    (∀ r ∈ contents (some [recTieA]),
      r ∈ contents (saveWork okEnv (some [recTieA]) recTieB).state) ∧
    (∀ r ∈ contents (some [recTieA]),
      r ∈ contents (getAllWorks okEnv (some [recTieA])).state) ∧
    ((contents (initDB okEnv (some [recTieA])).state).map
      WorkItem.id).Nodup ∧
    ((contents (saveWork okEnv (some [recTieA]) recTieB).state).map
      WorkItem.id).Nodup ∧
    ((contents (getAllWorks okEnv (some [recTieA])).state).map
      WorkItem.id).Nodup :=
  records_append_only okEnv (some [recTieA]) recTieB (by decide)

/-- Claim C9: the `getAllWorks` result is the deterministic function
`sortByRecency` of the stored contents, and its tie order is fixed: when
the stored records are in strictly ascending key order (as the object
store keeps them and `getAll` yields them), any two records with equal
`createdAt` appear in the result in ascending key order of their ids,
because the descending-`createdAt` sort is stable. -/
theorem listAll_tie_order (s : Store) (hkey : s.Pairwise keyLT) :
    (getAllWorks okEnv (some s)).outcome = .ok (sortByRecency s) ∧
    (sortByRecency s).Pairwise
      (fun a b => a.createdAt = b.createdAt → keyLT a b) := by
  refine ⟨rfl, ?_⟩
  exact pairwise_insertionSort_of recencyDesc
    (fun a b => a.createdAt = b.createdAt → keyLT a b)
    (fun a b hr heq => absurd (le_of_eq heq) hr) s
    (hkey.imp fun h => fun _ : _ = _ => h)

/-- Witness for C9: two records tied at `createdAt = 100` with ids
`"1" < "2"` come back in that ascending id order. -/
theorem listAll_tie_order_witness :
    (getAllWorks okEnv (some [recTieA, recTieB])).outcome =
      .ok (sortByRecency [recTieA, recTieB]) ∧
    (sortByRecency [recTieA, recTieB]).Pairwise
      (fun a b => a.createdAt = b.createdAt → keyLT a b) :=
  listAll_tie_order [recTieA, recTieB] (by decide)

/-- Claim C10: `saveWork` imposes no precondition beyond freshness of the
id: any record whose id is not yet stored is accepted and stored verbatim
— the record itself, all fields included, is a member of the resulting
store — with no validation of title, description, category or any other
field (the witness inserts a record with empty title and description and
a category outside the brand/video/exhibition enumeration). -/
theorem insert_no_field_validation (s : Store) (w : WorkItem)
    (hfresh : ∀ x ∈ s, x.id ≠ w.id) :
    (saveWork okEnv (some s) w).outcome = .ok () ∧
    w ∈ contents (saveWork okEnv (some s) w).state := by
  have h : ¬ ∃ x ∈ contents (some s), x.id = w.id := by
    rintro ⟨x, hx, hxe⟩
    exact hfresh x hx hxe
  rw [saveWork_okEnv_of_fresh (some s) w h]
  exact ⟨rfl, (List.mem_orderedInsert keyLE).mpr (Or.inl rfl)⟩

/-- Witness for C10: storing `weirdRec` (empty title and description,
category "not-a-category", empty blobs, negative timestamp) succeeds. -/
theorem insert_no_field_validation_witness :
    (saveWork okEnv (some [recAlpha]) weirdRec).outcome = .ok () ∧
    weirdRec ∈ contents (saveWork okEnv (some [recAlpha]) weirdRec).state :=
  insert_no_field_validation [recAlpha] weirdRec (by decide)

end AllInsight
